import Mathlib

/-!
Verification of the finance core of the project-administration dashboard.

The TypeScript source is embedded shallowly:
  * JS records (string/number keyed objects) become association lists with
    lookup/update helpers mirroring spread-update semantics;
  * monetary values entered through dialogs are rationals (`ℚ`), counted
    currency amounts are naturals (`ℕ`);
  * `Math.round` on a non-negative rational `num / den` is the half-up
    rounding `(2 * num + den) / (2 * den)` in natural division;
  * calendar dates are day numbers (`ℤ`, days since 1970-01-01, which was a
    Thursday, so a day number `d` falls on Monday iff `(d - 4) % 7 = 0`).
-/

/-! ## Data model: employees (src/data/mockData.ts) -/

structure Employee where
  id : String
  roles : List String
  dailyRate : Nat
  contractRate : Option Nat
deriving Repr, DecidableEq

/-- The eight seeded employees of `mockEmployees` (fields used by the
finance core only). -/
def mockEmployees : List Employee :=
  [ ⟨"user-1", ["admin"], 5000, none⟩,
    ⟨"user-2", ["gip"], 4500, none⟩,
    ⟨"user-3", ["executor"], 3500, none⟩,
    ⟨"user-4", ["executor"], 3500, none⟩,
    ⟨"user-5", ["accountant"], 3000, none⟩,
    ⟨"user-6", ["executor"], 0, some 150000⟩,
    ⟨"user-7", ["executor"], 3200, none⟩,
    ⟨"user-8", ["gip"], 4000, none⟩ ]

/-- `demoMonthlyTime` of src/data/salaryStore.ts: per employee and month, the
recorded (projectId, days) pairs.  Missing keys yield the empty record. -/
def demoMonthlyTime (employeeId month : String) : List (String × Nat) :=
  match employeeId, month with
  | "user-1", "2026-01" => [("proj-1", 12), ("proj-2", 4), ("proj-3", 2)]
  | "user-1", "2026-02" => [("proj-1", 14), ("proj-2", 5), ("proj-3", 3)]
  | "user-2", "2026-01" => [("proj-1", 8), ("proj-3", 6)]
  | "user-2", "2026-02" => [("proj-1", 10), ("proj-3", 8)]
  | "user-3", "2026-01" => [("proj-1", 10), ("proj-2", 6)]
  | "user-3", "2026-02" => [("proj-1", 12), ("proj-2", 8)]
  | "user-4", "2026-01" => [("proj-2", 7), ("proj-4", 5)]
  | "user-4", "2026-02" => [("proj-2", 9), ("proj-4", 6)]
  | "user-6", "2026-01" => [("proj-1", 0)]
  | "user-6", "2026-02" => [("proj-1", 0)]
  | "user-7", "2026-01" => [("proj-1", 5), ("proj-2", 6), ("proj-4", 4)]
  | "user-7", "2026-02" => [("proj-1", 6), ("proj-2", 7), ("proj-4", 5)]
  | "user-8", "2026-01" => [("proj-3", 8), ("proj-4", 7)]
  | "user-8", "2026-02" => [("proj-3", 10), ("proj-4", 8)]
  | _, _ => []

/-- `getEmployeeAccrued` of src/data/salaryStore.ts, parameterised by the
employee table and the monthly time records.  JS truthiness of
`emp.contractRate` is: `none` and `some 0` are falsy. -/
def getEmployeeAccrued (employees : List Employee)
    (monthlyTime : String → String → List (String × Nat))
    (employeeId month : String) : Nat :=
  match employees.find? (fun e => e.id == employeeId) with
  | none => 0
  | some emp =>
    if emp.roles.contains "accountant" then 0
    else
      match emp.contractRate with
      | some r =>
          if r ≠ 0 then r
          else ((monthlyTime employeeId month).map (fun kv => kv.2)).sum * emp.dailyRate
      | none => ((monthlyTime employeeId month).map (fun kv => kv.2)).sum * emp.dailyRate

/-! ## Reconciliation severity tiers (src/unnamed/part_007, Finance) -/

inductive BudgetSeverity where
  | healthy
  | warning
  | critical
deriving Repr, DecidableEq

/-- The conditional-styling classification of the remaining budget used by
the Finance table (both the per-project row and the organisation-wide total):
`remaining / budget > 0.5` is healthy, else `remaining / budget >= 0.1` is
warning, else critical; no class is produced when `budget ≤ 0`. -/
def severityClass (remaining budget : ℚ) : Option BudgetSeverity :=
  if 0 < budget then
    some (if 1/2 < remaining / budget then BudgetSeverity.healthy
          else if 1/10 ≤ remaining / budget then BudgetSeverity.warning
          else BudgetSeverity.critical)
  else none

/-! ## Payment/Income Ledger (src/unnamed/part_007, Finance) -/

structure EmployeePayment where
  id : String
  name : String
  amount : ℚ
deriving Repr, DecidableEq

structure PaymentEntry where
  amount : ℚ
  taskId : Option String := none
  taskTitle : Option String := none
  reason : Option String := none
  employeePayments : Option (List EmployeePayment) := none
deriving Repr, DecidableEq

/-- Lookup in a JS record modelled as an association list; a missing key
yields the supplied default (the source always defaults to an empty record
or empty array via optional chaining). -/
def getKey {κ α : Type} [BEq κ] (dflt : α) (m : List (κ × α)) (k : κ) : α :=
  match m.find? (fun kv => kv.1 == k) with
  | some kv => kv.2
  | none => dflt

/-- Spread-update of a JS record modelled as an association list: an existing
key is overwritten in place, a new key is appended in insertion order. -/
def setKey {κ α : Type} [BEq κ] (m : List (κ × α)) (k : κ) (v : α) : List (κ × α) :=
  if m.any (fun kv => kv.1 == k) then
    m.map (fun kv => if kv.1 == k then (k, v) else kv)
  else m ++ [(k, v)]

/-- One bucket of the ledger: `Record<number, PaymentEntry[]>`. -/
abbrev CellMap := List (Nat × List PaymentEntry)

/-- The payments / incomes store:
`Record<string, Record<number, PaymentEntry[]>>`. -/
abbrev Ledger := List (String × CellMap)

/-- Entries of one cell (`payments[b]?.[i] || []`). -/
def cellEntries (L : Ledger) (b : String) (i : Nat) : List PaymentEntry :=
  getKey [] (getKey [] L b) i

/-- The ledger mutation performed by `saveEntry`:
`{ ...payments, [b]: { ...payments[b], [i]: [...existing, entry] } }`. -/
def appendEntry (L : Ledger) (b : String) (i : Nat) (e : PaymentEntry) : Ledger :=
  setKey L b (setKey (getKey [] L b) i (cellEntries L b i ++ [e]))

/-- `getCellTotal` of part_007: sum of amounts at one cell (0 when the cell
is absent or empty). -/
def getCellTotal (L : Ledger) (b : String) (i : Nat) : ℚ :=
  ((cellEntries L b i).map (fun e => e.amount)).sum

/-- `getProjectSubcontractorPaid` of part_007: 0 when the project has no
bucket; otherwise the sum of `amount` over all entries of the bucket (all
periods flattened) whose `reason` is "subcontract".  The `subcontractorId`
argument is unused by the source (`_subcontractorId`). -/
def getProjectSubcontractorPaid (L : Ledger) (projectId : String)
    (_subcontractorId : String) : ℚ :=
  match L.find? (fun kv => kv.1 == projectId) with
  | none => 0
  | some kv =>
      ((((kv.2.map (fun c => c.2)).flatten).filter
          (fun e => e.reason == some "subcontract")).map (fun e => e.amount)).sum

/-! ## The Finance payment/income dialog (src/unnamed/part_007, saveEntry) -/

/-- `computeTotalFromEmployees` of part_007: sum of the parsed per-employee
inputs (an unparsable input contributes 0, modelled by the caller). -/
def computeTotalFromEmployees (amounts : List ℚ) : ℚ := amounts.sum

/-- The per-employee breakdown built by `saveEntry` in payment mode when the
selected task resolves to employees: parse each entered amount (default 0)
and keep only the strictly positive ones. -/
def buildEmployeePayments (emps : List (String × String)) (entered : String → ℚ) :
    List EmployeePayment :=
  (emps.map (fun e => EmployeePayment.mk e.1 e.2 (entered e.1))).filter
    (fun e => decide (0 < e.amount))

/-- Payment branch of `saveEntry`: returns the entry to append, or `none`
when the function returns early without touching the ledger.
`dialogTaskId` empty or "none" aborts; with a non-empty resolved employee
list the amount is the sum of the positive per-employee inputs, otherwise
the raw dialog amount; non-positive totals abort. -/
def savePaymentEntry (dialogTaskId : String) (taskTitle : Option String)
    (accountingSubtype : Option String) (emps : List (String × String))
    (entered : String → ℚ) (dialogAmount : ℚ) : Option PaymentEntry :=
  if dialogTaskId = "" ∨ dialogTaskId = "none" then none
  else if emps.isEmpty then
    if dialogAmount ≤ 0 then none
    else some { amount := dialogAmount, taskId := some dialogTaskId,
                taskTitle := taskTitle, reason := accountingSubtype,
                employeePayments := none }
  else
    let empPayments := buildEmployeePayments emps entered
    let totalAmount := (empPayments.map (fun e => e.amount)).sum
    if totalAmount ≤ 0 then none
    else some { amount := totalAmount, taskId := some dialogTaskId,
                taskTitle := taskTitle, reason := accountingSubtype,
                employeePayments := some empPayments }

/-- Income branch of `saveEntry`: aborts on a non-positive amount. -/
def saveIncomeEntry (dialogAmount : ℚ) (taskId : Option String)
    (taskTitle : Option String) : Option PaymentEntry :=
  if dialogAmount ≤ 0 then none
  else some { amount := dialogAmount, taskId := taskId, taskTitle := taskTitle,
              reason := some "income", employeePayments := none }

/-- Effect of `saveEntry` on the ledger: append the built entry, or leave the
ledger untouched when the dialog aborted. -/
def saveEntryLedger (L : Ledger) (b : String) (i : Nat) :
    Option PaymentEntry → Ledger
  | none => L
  | some e => appendEntry L b i e

/-! ## Payroll store (src/data/salaryStore.ts, src/unnamed/part_005) -/

structure SalaryPaymentRecord where
  employeeId : String
  employeeName : String
  amount : ℚ
  paid : Bool
deriving Repr, DecidableEq

inductive PayrollType where
  | salary
  | advance
deriving Repr, DecidableEq

structure SalaryPayroll where
  id : String
  date : String
  type : PayrollType
  monthLabel : String
  employees : List SalaryPaymentRecord
  processed : Bool
deriving Repr, DecidableEq

/-- `localPayrolls.find(p => p.id === selectedPayrollId)`. -/
def findPayroll (runs : List SalaryPayroll) (runId : String) : Option SalaryPayroll :=
  runs.find? (fun p => p.id == runId)

/-- `selectedPayroll?.processed || false` — the guard used by the editing
actions of SalaryPaymentsTab. -/
def selectedProcessed (runs : List SalaryPayroll) (runId : String) : Bool :=
  match findPayroll runs runId with
  | some p => p.processed
  | none => false

/-- `toggleEmployee` of SalaryPaymentsTab (the `setPaid` operation): flips one
line's paid flag in the selected run; returns the store unchanged when the
selected run is already processed. -/
def toggleEmployee (runs : List SalaryPayroll) (runId empId : String) :
    List SalaryPayroll :=
  if selectedProcessed runs runId then runs
  else
    runs.map (fun p =>
      if p.id == runId then
        { p with employees := p.employees.map (fun e =>
            if e.employeeId == empId then { e with paid := !e.paid } else e) }
      else p)

/-- `toggleAll` of SalaryPaymentsTab: sets every line's paid flag to the
negation of "all lines currently paid"; no-op on a processed run. -/
def toggleAll (runs : List SalaryPayroll) (runId : String) : List SalaryPayroll :=
  if selectedProcessed runs runId then runs
  else
    let allChecked :=
      match findPayroll runs runId with
      | some p => p.employees.all (fun e => e.paid)
      | none => false
    runs.map (fun p =>
      if p.id == runId then
        { p with employees := p.employees.map (fun e => { e with paid := !allChecked }) }
      else p)

/-- `updateAmount` of SalaryPaymentsTab (the `setAmount` operation): overwrites
one line's amount with the parsed value; no-op on a processed run. -/
def updateAmount (runs : List SalaryPayroll) (runId empId : String) (numVal : ℚ) :
    List SalaryPayroll :=
  if selectedProcessed runs runId then runs
  else
    runs.map (fun p =>
      if p.id == runId then
        { p with employees := p.employees.map (fun e =>
            if e.employeeId == empId then { e with amount := numVal } else e) }
      else p)

/-- `processPayroll` of SalaryPaymentsTab (the `process` operation): marks the
selected run processed. -/
def processPayroll (runs : List SalaryPayroll) (runId : String) : List SalaryPayroll :=
  runs.map (fun p => if p.id == runId then { p with processed := true } else p)

/-! ## Proportional Allocator (src/components/finance/SalaryDistributionTab.tsx) -/

/-- `Math.round (num / den)` for non-negative integers: round half up. -/
def jsRound (num den : Nat) : Nat := (2 * num + den) / (2 * den)

/-- The per-payment project breakdown of SalaryDistributionTab: keep the
projects with positive recorded days (all of them for contract staff), give
each the share `Math.round (paymentAmount * proportion)` where `proportion`
is `1` for contract staff and otherwise `days / totalDays` (or `0` when no
days are recorded at all). -/
def projectShares (isContract : Bool) (paymentAmount : Nat) (days : List Nat) :
    List Nat :=
  let totalDays := days.sum
  let kept := days.filter (fun d => decide (0 < d) || isContract)
  kept.map (fun d =>
    if isContract then paymentAmount
    else if 0 < totalDays then jsRound (paymentAmount * d) totalDays
    else 0)

/-! ## Period generators (src/pages/Finance.tsx and src/unnamed/part_007) -/

/-- Dates are day numbers: days since 1970-01-01 (a Thursday), so a day
number `d` is a Monday iff `(d - 4) % 7 = 0`. -/
def isMonday (d : Int) : Prop := (d - 4) % 7 = 0

/-- `startOfWeek(d, { weekStartsOn: 1 })`: the greatest Monday `≤ d`. -/
def startOfWeekMonday (d : Int) : Int := d - (d - 4) % 7

/-- Fuel-driven unfolding of the generator loop
`while (current <= limit) { push(current); current = addWeeks(current, 1) }`.
The fuel is a strict upper bound on the number of iterations so the
recursion is structural (and hence computable by the kernel). -/
def weekSeqAux : Nat → Int → Int → List Int
  | 0, _, _ => []
  | fuel + 1, current, limit =>
      if current ≤ limit then current :: weekSeqAux fuel (current + 7) limit
      else []

/-- The generator loop itself; `((limit + 7 - current) / 7 + 1).toNat` bounds
the iteration count. -/
def weekSeq (current limit : Int) : List Int :=
  weekSeqAux ((limit + 7 - current).toNat) current limit

structure ProjectRange where
  startDate : Int
  endDate : Int
deriving Repr, DecidableEq

/-- `generateWeeks` of src/pages/Finance.tsx (range-derived policy): empty
input gives the empty sequence; otherwise start at the Monday of the week of
the earliest project start and step weekly while not after the latest
project end plus two weeks (`addWeeks(maxDate, 2)`). -/
def generateWeeks : List ProjectRange → List Int
  | [] => []
  | p :: ps =>
      let minStart := (ps.map (fun q => q.startDate)).foldl min p.startDate
      let maxEnd := (ps.map (fun q => q.endDate)).foldl max p.endDate
      weekSeq (startOfWeekMonday minStart) (maxEnd + 14)

/-- `generateWeeks` of src/unnamed/part_007 (fixed-half-year policy): start at
the Monday of the week containing the half-year start and step weekly while
not after the half-year end.  `halfStart`/`halfEnd` are the day numbers of
Jan 1/Jun 30 or Jul 1/Dec 31 of the current year, here left abstract. -/
def generateWeeksHalf (halfStart halfEnd : Int) : List Int :=
  weekSeq (startOfWeekMonday halfStart) halfEnd

/-! ## Mock API router (src/lib/api.ts / mockApi) -/

/-- Shape of a mock API response; payload contents are irrelevant to the
routing contract, so collections/objects are tagged with the store they are
drawn from. -/
inductive RespShape where
  | listOf (tag : String)
  | objectOf (tag : String)
  | nullable (tag : String)
  | emptyList
  | emptyObj
deriving Repr, DecidableEq

structure ApiResult where
  warned : Bool
  value : RespShape
deriving Repr, DecidableEq

/-- JS `"…".split("/")` over the character list (structural, so the kernel
can evaluate it): cuts at every '/', keeping empty segments. -/
def splitSlashAux : List Char → List Char → List String
  | [], acc => [String.mk acc.reverse]
  | c :: rest, acc =>
      if c = '/' then String.mk acc.reverse :: splitSlashAux rest []
      else splitSlashAux rest (c :: acc)

def splitSlash (s : String) : List String := splitSlashAux s.toList []

/-- Does a pattern segment start with ':' (a parameter capture)? -/
def isParamSeg (s : String) : Bool :=
  match s.toList with
  | c :: _ => c = ':'
  | [] => false

/-- `segment.slice(1)`: the parameter name without its leading ':'. -/
def dropColon (s : String) : String := String.mk (s.toList.drop 1)

/-- `matchRoute` of mockApi: split both strings on "/", drop empty segments,
require equal length, let `:name` segments capture and all others match
literally; returns the captured parameters. -/
def matchRoute (path pat : String) : Option (List (String × String)) :=
  let pathParts := (splitSlash path).filter (fun s => decide (s ≠ ""))
  let patParts := (splitSlash pat).filter (fun s => decide (s ≠ ""))
  if pathParts.length ≠ patParts.length then none
  else
    let pairs := patParts.zip pathParts
    if pairs.all (fun q => isParamSeg q.1 || decide (q.1 = q.2)) then
      some ((pairs.filter (fun q => isParamSeg q.1)).map
        (fun q => (dropColon q.1, q.2)))
    else none

/-- The routes of `mockApiFetch`, in source order: each entry is the Boolean
guard of one dispatch branch (JS `===` / `&&`) together with the shape of the
value that branch returns. -/
def routeTable (method rawPath : String) : List (Bool × RespShape) :=
  [ (rawPath == "/departments" && method == "GET", .listOf "departments"),
    (rawPath == "/departments" && method == "POST", .objectOf "department"),
    ((matchRoute rawPath "/departments/:id").isSome && method == "PATCH", .objectOf "department"),
    ((matchRoute rawPath "/departments/:id").isSome && method == "DELETE", .emptyObj),
    (rawPath == "/users" && method == "GET", .listOf "employees"),
    (rawPath == "/users" && method == "POST", .objectOf "employee"),
    ((matchRoute rawPath "/users/:id").isSome && method == "PATCH", .objectOf "employee"),
    ((matchRoute rawPath "/users/:id").isSome && method == "DELETE", .emptyObj),
    (rawPath == "/contractors" && method == "GET", .listOf "contractors"),
    (rawPath == "/contractors" && method == "POST", .objectOf "contractor"),
    ((matchRoute rawPath "/contractors/:id").isSome && method == "GET", .objectOf "contractor"),
    ((matchRoute rawPath "/contractors/:id").isSome && method == "PATCH", .objectOf "contractor"),
    ((matchRoute rawPath "/contractors/:id").isSome && method == "DELETE", .emptyObj),
    (rawPath == "/projects" && method == "GET", .listOf "projects"),
    (rawPath == "/projects" && method == "POST", .objectOf "project"),
    ((matchRoute rawPath "/projects/:id").isSome && method == "GET", .nullable "project"),
    ((matchRoute rawPath "/projects/:id").isSome && method == "PATCH", .objectOf "project"),
    ((matchRoute rawPath "/projects/:id").isSome && method == "DELETE", .emptyObj),
    ((matchRoute rawPath "/projects/:id/restore").isSome && method == "POST", .emptyObj),
    ((matchRoute rawPath "/projects/:id/members").isSome && method == "GET", .listOf "members"),
    ((matchRoute rawPath "/projects/:id/tasks").isSome && method == "GET", .listOf "tasks"),
    ((matchRoute rawPath "/projects/:id/subcontractors").isSome && method == "GET", .listOf "projectSubcontractors"),
    ((matchRoute rawPath "/projects/:id/sections").isSome && method == "GET", .listOf "sections"),
    ((matchRoute rawPath "/projects/:id/sections").isSome && method == "PUT", .objectOf "body"),
    (rawPath == "/tasks" && method == "GET", .listOf "tasks"),
    (rawPath == "/tasks" && method == "POST", .objectOf "task"),
    ((matchRoute rawPath "/tasks/:id").isSome && method == "GET", .nullable "task"),
    ((matchRoute rawPath "/tasks/:id").isSome && method == "PATCH", .objectOf "task"),
    ((matchRoute rawPath "/tasks/:id").isSome && method == "DELETE", .emptyObj),
    (rawPath == "/subcontracts/requests" && method == "GET", .listOf "subcontractRequests"),
    (rawPath == "/time-tracking/entries" && method == "GET", .listOf "timeEntries"),
    (rawPath == "/time-tracking/entries" && method == "POST", .emptyObj),
    (rawPath == "/time-tracking/day-offs" && method == "GET", .listOf "dayOffs"),
    (rawPath == "/time-tracking/day-offs" && method == "POST", .emptyObj),
    ((matchRoute rawPath "/projects/:id/files").isSome, .emptyList),
    ((matchRoute rawPath "/projects/:id/messages").isSome && method == "GET", .emptyList),
    ((matchRoute rawPath "/projects/:id/messages").isSome && method == "POST", .objectOf "body"),
    ((matchRoute rawPath "/contractors/:id/projects").isSome, .emptyList),
    (rawPath == "/auth/refresh", .emptyObj) ]

/-- `mockApiFetch` of src/lib (mockApi), restricted to what is observable for
the routing contract: the first branch of the method/path dispatch whose
guard holds returns its value without warning; when no guard holds the
fallback logs a warning (`console.warn`) and returns the empty array. -/
def mockApiFetch (method rawPath : String) : ApiResult :=
  match (routeTable method rawPath).find? (fun br => br.1) with
  | some br => ⟨false, br.2⟩
  | none => ⟨true, .emptyList⟩

/-- A request is handled when some branch guard of the dispatch matches its
method and path. -/
def handledRoute (method rawPath : String) : Bool :=
  (routeTable method rawPath).any (fun br => br.1)

/-! ## Theorems -/

/-- Claim C2: `accrued(employeeId, month)` returns 0 for an unknown employee
and for an accountant; for an employee with a positive `contractRate` it
returns that rate regardless of the month and of the recorded work-days;
otherwise it returns the sum of recorded work-days for that employee and
month times the daily rate, in particular 0 when no time records exist. -/
theorem c2_employee_accrual :
    (∀ (emps : List Employee) (mt : String → String → List (String × Nat))
        (eid month : String),
        emps.find? (fun e => e.id == eid) = none →
        getEmployeeAccrued emps mt eid month = 0)
  ∧ (∀ (emps : List Employee) (mt : String → String → List (String × Nat))
        (eid month : String) (emp : Employee),
        emps.find? (fun e => e.id == eid) = some emp →
        emp.roles.contains "accountant" = true →
        getEmployeeAccrued emps mt eid month = 0)
  ∧ (∀ (emps : List Employee) (mt : String → String → List (String × Nat))
        (eid month : String) (emp : Employee) (r : Nat),
        emps.find? (fun e => e.id == eid) = some emp →
        emp.roles.contains "accountant" = false →
        emp.contractRate = some r → 0 < r →
        getEmployeeAccrued emps mt eid month = r)
  ∧ (∀ (emps : List Employee) (mt : String → String → List (String × Nat))
        (eid month : String) (emp : Employee),
        emps.find? (fun e => e.id == eid) = some emp →
        emp.roles.contains "accountant" = false →
        (emp.contractRate = none ∨ emp.contractRate = some 0) →
        getEmployeeAccrued emps mt eid month =
          ((mt eid month).map (fun kv => kv.2)).sum * emp.dailyRate)
  ∧ (∀ (emps : List Employee) (mt : String → String → List (String × Nat))
        (eid month : String) (emp : Employee),
        emps.find? (fun e => e.id == eid) = some emp →
        emp.roles.contains "accountant" = false →
        (emp.contractRate = none ∨ emp.contractRate = some 0) →
        mt eid month = [] →
        getEmployeeAccrued emps mt eid month = 0) := by
  refine ⟨?_, ?_, ?_, ?_, ?_⟩
  · intro emps mt eid month hfind
    simp [getEmployeeAccrued, hfind]
  · intro emps mt eid month emp hfind hacc
    have hmem : "accountant" ∈ emp.roles := by simpa using hacc
    simp [getEmployeeAccrued, hfind, hmem]
  · intro emps mt eid month emp r hfind hacc hrate hpos
    have hmem : "accountant" ∉ emp.roles := by simpa using hacc
    have hr0 : ¬ r = 0 := by omega
    simp [getEmployeeAccrued, hfind, hmem, hrate, hr0]
  · intro emps mt eid month emp hfind hacc hrate
    have hmem : "accountant" ∉ emp.roles := by simpa using hacc
    rcases hrate with h | h <;> simp [getEmployeeAccrued, hfind, hmem, h]
  · intro emps mt eid month emp hfind hacc hrate hempty
    have hmem : "accountant" ∉ emp.roles := by simpa using hacc
    rcases hrate with h | h <;> simp [getEmployeeAccrued, hfind, hmem, h, hempty]

/-- Witness for C2 on the seeded data: the contract employee user-6 accrues
the flat 150000 in 2026-02, and the accountant user-5 accrues 0. -/
theorem c2_employee_accrual_witness :
    getEmployeeAccrued mockEmployees demoMonthlyTime "user-6" "2026-02" = 150000
  ∧ getEmployeeAccrued mockEmployees demoMonthlyTime "user-5" "2026-01" = 0 := by
  constructor
  · exact c2_employee_accrual.2.2.1 mockEmployees demoMonthlyTime "user-6" "2026-02"
      ⟨"user-6", ["executor"], 0, some 150000⟩ 150000 (by rfl) (by rfl) (by rfl)
      (by norm_num)
  · exact c2_employee_accrual.2.1 mockEmployees demoMonthlyTime "user-5" "2026-01"
      ⟨"user-5", ["accountant"], 3000, none⟩ (by rfl) (by rfl)

/-- Claim C5: for budget > 0 the severity classification is exactly
three-tiered in the fraction remaining/budget: healthy iff the fraction is
strictly above 1/2, warning iff it lies in [1/10, 1/2], critical iff it is
strictly below 1/10; in particular a fraction of exactly 0.50 is warning
(not healthy), 0.10 is warning, and 0.099 is critical. -/
theorem c5_severity_tiers :
    (∀ remaining budget : ℚ, 0 < budget →
        (severityClass remaining budget = some BudgetSeverity.healthy ↔
            1/2 < remaining / budget)
      ∧ (severityClass remaining budget = some BudgetSeverity.warning ↔
            1/10 ≤ remaining / budget ∧ remaining / budget ≤ 1/2)
      ∧ (severityClass remaining budget = some BudgetSeverity.critical ↔
            remaining / budget < 1/10))
  ∧ severityClass (1/2) 1 = some BudgetSeverity.warning
  ∧ severityClass (1/10) 1 = some BudgetSeverity.warning
  ∧ severityClass (99/1000) 1 = some BudgetSeverity.critical := by
  refine ⟨?_, by norm_num [severityClass], by norm_num [severityClass],
    by norm_num [severityClass]⟩
  intro remaining budget hb
  simp only [severityClass, if_pos hb]
  by_cases h1 : 1/2 < remaining / budget
  · rw [if_pos h1]
    exact ⟨⟨fun _ => h1, fun _ => rfl⟩,
           ⟨fun h => absurd (Option.some.inj h) (by decide),
            fun h => absurd h1 (not_lt.mpr h.2)⟩,
           ⟨fun h => absurd (Option.some.inj h) (by decide),
            fun h => absurd h1 (not_lt.mpr (by linarith))⟩⟩
  · rw [if_neg h1]
    push_neg at h1
    by_cases h2 : 1/10 ≤ remaining / budget
    · rw [if_pos h2]
      exact ⟨⟨fun h => absurd (Option.some.inj h) (by decide),
              fun h => absurd h (not_lt.mpr h1)⟩,
             ⟨fun _ => ⟨h2, h1⟩, fun _ => rfl⟩,
             ⟨fun h => absurd (Option.some.inj h) (by decide),
              fun h => absurd h2 (not_le.mpr h)⟩⟩
    · rw [if_neg h2]
      push_neg at h2
      exact ⟨⟨fun h => absurd (Option.some.inj h) (by decide),
              fun h => absurd h (not_lt.mpr h1)⟩,
             ⟨fun h => absurd (Option.some.inj h) (by decide),
              fun h => absurd h.1 (not_le.mpr h2)⟩,
             ⟨fun _ => h2, fun _ => rfl⟩⟩

/-- Witness for C5: a project with budget 1 and remaining 3/4 is healthy. -/
theorem c5_severity_tiers_witness :
    severityClass (3/4) 1 = some BudgetSeverity.healthy :=
  ((c5_severity_tiers.1 (3/4) 1 (by norm_num)).1).mpr (by norm_num)

/-- Claim C9: a request whose method and path match no branch of the mock
API dispatch reaches the fallback, which logs a warning and returns the
empty collection (it neither throws nor signals failure). -/
theorem c9_unhandled_fallback :
    ∀ method rawPath : String, handledRoute method rawPath = false →
      mockApiFetch method rawPath = ⟨true, RespShape.emptyList⟩ := by
  intro m p h
  unfold mockApiFetch
  have hnone : (routeTable m p).find? (fun br => br.1) = none := by
    rw [List.find?_eq_none]
    intro x hx
    simp only [handledRoute, List.any_eq_false] at h
    simpa using h x hx
  rw [hnone]

/-- Witness for C9: `PUT /departments` matches no route and yields the
warned empty collection. -/
theorem c9_unhandled_fallback_witness :
    mockApiFetch "PUT" "/departments" = ⟨true, RespShape.emptyList⟩ :=
  c9_unhandled_fallback "PUT" "/departments" (by decide)

/-- Replacing the value at key `k` leaves lookups of other keys unchanged. -/
theorem find?_map_replaceKey {κ α : Type} [BEq κ] [LawfulBEq κ]
    (m : List (κ × α)) (k j : κ) (v : α) (hj : j ≠ k) :
    (m.map (fun kv => if kv.1 == k then (k, v) else kv)).find?
        (fun kv => kv.1 == j) =
      m.find? (fun kv => kv.1 == j) := by
  induction m with
  | nil => rfl
  | cons hd tl ih =>
    by_cases hhd : (hd.1 == k) = true
    · have hk : hd.1 = k := by simpa using hhd
      have h1 : ((k, v).1 == j) = false := by simp; exact fun h => hj h.symm
      have h2 : (hd.1 == j) = false := by simp [hk]; exact fun h => hj h.symm
      simp only [List.map_cons, List.find?_cons, hhd, if_true, h1, h2]
      exact ih
    · simp only [List.map_cons, List.find?_cons, hhd, if_false]
      cases h : (hd.1 == j) <;> simp [h, ih]

/-- After replacing the value at key `k`, looking up `k` yields the new value
when some entry carried `k`, and nothing otherwise. -/
theorem find?_map_replaceKey_same {κ α : Type} [BEq κ] [LawfulBEq κ]
    (m : List (κ × α)) (k : κ) (v : α) :
    (m.map (fun kv => if kv.1 == k then (k, v) else kv)).find?
        (fun kv => kv.1 == k) =
      if m.any (fun kv => kv.1 == k) then some (k, v) else none := by
  induction m with
  | nil => rfl
  | cons hd tl ih =>
    by_cases hhd : (hd.1 == k) = true
    · have hhead : (if (hd.1 == k) = true then (k, v) else hd) = (k, v) := if_pos hhd
      rw [List.map_cons, hhead, List.find?_cons_of_pos _ (by simp), List.any_cons,
        hhd, Bool.true_or]
      simp
    · have h0 : (hd.1 == k) = false := by simpa using hhd
      have hhead : (if (hd.1 == k) = true then (k, v) else hd) = hd := if_neg (by simp [h0])
      rw [List.map_cons, hhead, List.find?_cons_of_neg _ (by simp [h0]), List.any_cons,
        h0, Bool.false_or]
      exact ih

/-- `find?` over an appended singleton. -/
theorem find?_append_singleton {κ α : Type} [BEq κ] [LawfulBEq κ]
    (m : List (κ × α)) (k j : κ) (v : α) :
    (m ++ [(k, v)]).find? (fun kv => kv.1 == j) =
      match m.find? (fun kv => kv.1 == j) with
      | some kv => some kv
      | none => if (k == j) = true then some (k, v) else none := by
  induction m with
  | nil => cases h : (k == j) <;> simp [List.find?, h]
  | cons hd tl ih =>
    cases h : (hd.1 == j) <;> simp only [List.cons_append, List.find?_cons, h] <;>
      simp [ih]

/-- The JS spread update read back: reading the written key returns the
written value, reading any other key is unchanged. -/
theorem getKey_setKey_same {κ α : Type} [BEq κ] [LawfulBEq κ]
    (dflt : α) (m : List (κ × α)) (k : κ) (v : α) :
    getKey dflt (setKey m k v) k = v := by
  unfold getKey setKey
  by_cases hany : m.any (fun kv => kv.1 == k) = true
  · rw [if_pos hany, find?_map_replaceKey_same, if_pos hany]
  · rw [if_neg hany, find?_append_singleton]
    have hnone : m.find? (fun kv => kv.1 == k) = none := by
      rw [List.find?_eq_none]
      intro x hx
      rcases Bool.eq_false_or_eq_true (x.1 == k) with h | h
      · exact absurd (List.any_eq_true.mpr ⟨x, hx, h⟩) hany
      · simp [h]
    simp [hnone]

theorem getKey_setKey_other {κ α : Type} [BEq κ] [LawfulBEq κ]
    (dflt : α) (m : List (κ × α)) (k j : κ) (v : α) (hj : j ≠ k) :
    getKey dflt (setKey m k v) j = getKey dflt m j := by
  unfold getKey setKey
  by_cases hany : m.any (fun kv => kv.1 == k) = true
  · rw [if_pos hany, find?_map_replaceKey m k j v hj]
  · rw [if_neg hany, find?_append_singleton]
    have hkj : (k == j) = false := by simp; exact fun h => hj h.symm
    cases h : m.find? (fun kv => kv.1 == j) <;> simp [h, hkj]

/-- Claim C3: appending a payment entry to a ledger cell adds it at the end
of that cell, raises that cell's total by exactly the entry's amount, keeps
every previously stored entry retrievable unchanged at its position, and
leaves every other cell untouched. -/
theorem c3_ledger_append_only :
    ∀ (L : Ledger) (b : String) (i : Nat) (e : PaymentEntry),
      getCellTotal (appendEntry L b i e) b i = getCellTotal L b i + e.amount
    ∧ cellEntries (appendEntry L b i e) b i = cellEntries L b i ++ [e]
    ∧ (∀ (b' : String) (i' : Nat), ¬(b' = b ∧ i' = i) →
        cellEntries (appendEntry L b i e) b' i' = cellEntries L b' i')
    ∧ (∀ (j : Nat) (x : PaymentEntry), (cellEntries L b i).get? j = some x →
        (cellEntries (appendEntry L b i e) b i).get? j = some x) := by
  intro L b i e
  have hcell : cellEntries (appendEntry L b i e) b i = cellEntries L b i ++ [e] := by
    unfold cellEntries appendEntry
    rw [getKey_setKey_same, getKey_setKey_same]
    rfl
  refine ⟨?_, hcell, ?_, ?_⟩
  · unfold getCellTotal
    rw [hcell]
    simp
  · intro b' i' hne
    by_cases hb : b' = b
    · subst hb
      have hi : i' ≠ i := fun h => hne ⟨rfl, h⟩
      unfold cellEntries appendEntry
      rw [getKey_setKey_same, getKey_setKey_other _ _ _ _ _ hi]
    · unfold cellEntries appendEntry
      rw [getKey_setKey_other _ _ _ _ _ hb]
  · intro j x hx
    rw [hcell]
    have hlt : j < (cellEntries L b i).length := by
      rcases List.get?_eq_some.mp hx with ⟨hj, _⟩
      exact hj
    rw [List.get?_append hlt]
    exact hx

/-- Witness for C3 on a one-cell ledger: appending a 7-ruble entry to a cell
holding a 5-ruble entry gives total 12, keeps the old entry at index 0, and
leaves a different cell empty. -/
theorem c3_ledger_append_only_witness :
    getCellTotal
        (appendEntry [("proj-1", [(2, [{ amount := 5 }])])] "proj-1" 2 { amount := 7 })
        "proj-1" 2 =
      getCellTotal [("proj-1", [(2, [{ amount := 5 }])])] "proj-1" 2 + (7 : ℚ)
  ∧ cellEntries
        (appendEntry [("proj-1", [(2, [{ amount := 5 }])])] "proj-1" 2 { amount := 7 })
        "proj-1" 3 =
      cellEntries [("proj-1", [(2, [{ amount := 5 }])])] "proj-1" 3
  ∧ (cellEntries
        (appendEntry [("proj-1", [(2, [{ amount := 5 }])])] "proj-1" 2 { amount := 7 })
        "proj-1" 2).get? 0 = some { amount := 5 } := by
  refine ⟨(c3_ledger_append_only _ "proj-1" 2 _).1, ?_, ?_⟩
  · exact (c3_ledger_append_only _ "proj-1" 2 _).2.2.1 "proj-1" 3 (by simp)
  · exact (c3_ledger_append_only _ "proj-1" 2 _).2.2.2 0 _ (by rfl)

/-- Summing the amounts of the subcontract-reason entries equals summing an
indicator amount over all entries. -/
theorem filter_subcontract_sum (l : List PaymentEntry) :
    ((l.filter (fun e => e.reason == some "subcontract")).map
        (fun e => e.amount)).sum =
      (l.map (fun e => if e.reason = some "subcontract" then e.amount else 0)).sum := by
  induction l with
  | nil => rfl
  | cons hd tl ih =>
    by_cases h : hd.reason = some "subcontract"
    · simp [List.filter_cons, h, ih]
    · simp [List.filter_cons, h, ih]

/-- Claim C6: the "amount paid to subcontractor" query ignores which
subcontractor is asked about, returns 0 for a project with no ledger bucket,
and otherwise sums the amounts of ALL subcontract-reason entries of the
project across all periods. -/
theorem c6_subcontractor_paid :
    (∀ (L : Ledger) (pid s t : String),
        getProjectSubcontractorPaid L pid s = getProjectSubcontractorPaid L pid t)
  ∧ (∀ (L : Ledger) (pid s : String),
        L.find? (fun kv => kv.1 == pid) = none →
        getProjectSubcontractorPaid L pid s = 0)
  ∧ (∀ (L : Ledger) (pid s : String) (kv : String × CellMap),
        L.find? (fun kv => kv.1 == pid) = some kv →
        getProjectSubcontractorPaid L pid s =
          (((kv.2.map (fun c => c.2)).flatten).map
            (fun e => if e.reason = some "subcontract" then e.amount else 0)).sum) := by
  refine ⟨fun L pid s t => rfl, ?_, ?_⟩
  · intro L pid s hnone
    simp [getProjectSubcontractorPaid, hnone]
  · intro L pid s kv hfind
    simp only [getProjectSubcontractorPaid, hfind]
    exact filter_subcontract_sum _

/-- Witness for C6 on a bucket shaped like the seeded proj-1 data: the two
subcontract entries (850000 and 320000) are summed for any requested
subcontractor id, and the salary entry is ignored. -/
theorem c6_subcontractor_paid_witness :
    getProjectSubcontractorPaid
        [("proj-1",
          [(2, [{ amount := 250000, reason := some "salary" }]),
           (4, [{ amount := 850000, reason := some "subcontract" }]),
           (7, [{ amount := 320000, reason := some "subcontract" }])])]
        "proj-1" "psub-1" =
      (((([(2, [({ amount := 250000, reason := some "salary" } : PaymentEntry)]),
           (4, [{ amount := 850000, reason := some "subcontract" }]),
           (7, [{ amount := 320000, reason := some "subcontract" }])] :
            CellMap).map (fun c => c.2)).flatten).map
        (fun e => if e.reason = some "subcontract" then e.amount else 0)).sum
  ∧ getProjectSubcontractorPaid [] "proj-9" "psub-1" = 0 := by
  constructor
  · exact c6_subcontractor_paid.2.2
      [("proj-1",
        [(2, [{ amount := 250000, reason := some "salary" }]),
         (4, [{ amount := 850000, reason := some "subcontract" }]),
         (7, [{ amount := 320000, reason := some "subcontract" }])])]
      "proj-1" "psub-1"
      ("proj-1",
        [(2, [{ amount := 250000, reason := some "salary" }]),
         (4, [{ amount := 850000, reason := some "subcontract" }]),
         (7, [{ amount := 320000, reason := some "subcontract" }])])
      (by rfl)
  · exact c6_subcontractor_paid.2.1 [] "proj-9" "psub-1" (by rfl)

/-- Claim C10: a payment-dialog entry built from a non-empty resolved
employee list carries a breakdown whose strictly positive per-employee
amounts sum exactly to the entry amount; no entry with non-positive amount
is ever produced (payment or income), and an aborted save leaves the ledger
unchanged. -/
theorem c10_dialog_entry_invariants :
    (∀ (tid : String) (tt st : Option String) (emps : List (String × String))
        (entered : String → ℚ) (da : ℚ) (entry : PaymentEntry),
        emps ≠ [] →
        savePaymentEntry tid tt st emps entered da = some entry →
        ∃ l, entry.employeePayments = some l
          ∧ entry.amount = (l.map (fun p => p.amount)).sum
          ∧ ∀ p ∈ l, 0 < p.amount)
  ∧ (∀ (tid : String) (tt st : Option String) (emps : List (String × String))
        (entered : String → ℚ) (da : ℚ) (entry : PaymentEntry),
        savePaymentEntry tid tt st emps entered da = some entry →
        0 < entry.amount)
  ∧ (∀ (da : ℚ) (tid tt : Option String) (entry : PaymentEntry),
        saveIncomeEntry da tid tt = some entry → 0 < entry.amount)
  ∧ (∀ (L : Ledger) (b : String) (i : Nat) (tid : String) (tt st : Option String)
        (emps : List (String × String)) (entered : String → ℚ) (da : ℚ),
        savePaymentEntry tid tt st emps entered da = none →
        saveEntryLedger L b i (savePaymentEntry tid tt st emps entered da) = L)
  ∧ (∀ (tid : String) (tt st : Option String) (emps : List (String × String))
        (entered : String → ℚ) (da : ℚ) (entry : PaymentEntry)
        (l : List EmployeePayment),
        savePaymentEntry tid tt st emps entered da = some entry →
        entry.employeePayments = some l →
        entry.amount = (l.map (fun p => p.amount)).sum) := by
  refine ⟨?_, ?_, ?_, ?_, ?_⟩
  · intro tid tt st emps entered da entry hne hsave
    have hie : emps.isEmpty = false := by
      cases emps
      · exact absurd rfl hne
      · rfl
    simp only [savePaymentEntry, hie, Bool.false_eq_true, if_false] at hsave
    split_ifs at hsave with h1 h3
    injection hsave with h
    subst h
    refine ⟨buildEmployeePayments emps entered, rfl, rfl, ?_⟩
    intro p hp
    exact of_decide_eq_true (List.mem_filter.mp hp).2
  · intro tid tt st emps entered da entry hsave
    simp only [savePaymentEntry] at hsave
    split_ifs at hsave with h1 h2 h3 h4
    · injection hsave with h
      subst h
      exact lt_of_not_le h3
    · injection hsave with h
      subst h
      exact lt_of_not_le h4
  · intro da tid tt entry hsave
    simp only [saveIncomeEntry] at hsave
    split_ifs at hsave with h1
    injection hsave with h
    subst h
    exact lt_of_not_le h1
  · intro L b i tid tt st emps entered da hnone
    rw [hnone]
    rfl
  · intro tid tt st emps entered da entry l hsave hl
    simp only [savePaymentEntry] at hsave
    split_ifs at hsave with h1 h2 h3 h4
    · injection hsave with h
      subst h
      simp at hl
    · injection hsave with h
      subst h
      simp only [PaymentEntry.employeePayments] at hl
      rw [← Option.some.inj hl]

/-- Witness for C10: with employees A and B each entered at 50 the dialog
appends an entry of amount 100 whose breakdown sums to 100. -/
theorem c10_dialog_entry_invariants_witness :
    ∃ l, ({ amount := 100, taskId := some "acc-1", taskTitle := some "t",
            reason := some "salary",
            employeePayments :=
              some [⟨"user-1", "A", 50⟩, ⟨"user-2", "B", 50⟩] } :
              PaymentEntry).employeePayments = some l
      ∧ (100 : ℚ) = (l.map (fun p => p.amount)).sum
      ∧ ∀ p ∈ l, 0 < p.amount := by
  have h := c10_dialog_entry_invariants.1 "acc-1" (some "t") (some "salary")
    [("user-1", "A"), ("user-2", "B")] (fun _ => 50) 0
    { amount := 100, taskId := some "acc-1", taskTitle := some "t",
      reason := some "salary",
      employeePayments := some [⟨"user-1", "A", 50⟩, ⟨"user-2", "B", 50⟩] }
    (by simp)
    (by norm_num [savePaymentEntry, buildEmployeePayments]
        intro h
        exact absurd h (by decide))
  exact h

/-- Claim C4: `process` marks the selected run processed and changes nothing
else (in particular it never clears the flag and leaves other runs alone),
it is idempotent, none of the editing operations ever changes any run's
processed flag, and `setPaid`/`toggleAll`/`setAmount` leave the store
completely unchanged once the selected run is processed. -/
theorem c4_payroll_one_way :
    (∀ (runs : List SalaryPayroll) (runId : String) (k : Nat) (q : SalaryPayroll),
        runs.get? k = some q →
        ∃ q', (processPayroll runs runId).get? k = some q'
          ∧ q'.id = q.id ∧ q'.date = q.date ∧ q'.type = q.type
          ∧ q'.monthLabel = q.monthLabel ∧ q'.employees = q.employees
          ∧ q'.processed = (q.processed || q.id == runId))
  ∧ (∀ (runs : List SalaryPayroll) (runId : String),
        processPayroll (processPayroll runs runId) runId = processPayroll runs runId)
  ∧ (∀ (runs : List SalaryPayroll) (runId empId : String) (k : Nat),
        ((toggleEmployee runs runId empId).get? k).map (fun p => p.processed)
          = (runs.get? k).map (fun p => p.processed))
  ∧ (∀ (runs : List SalaryPayroll) (runId : String) (k : Nat),
        ((toggleAll runs runId).get? k).map (fun p => p.processed)
          = (runs.get? k).map (fun p => p.processed))
  ∧ (∀ (runs : List SalaryPayroll) (runId empId : String) (v : ℚ) (k : Nat),
        ((updateAmount runs runId empId v).get? k).map (fun p => p.processed)
          = (runs.get? k).map (fun p => p.processed))
  ∧ (∀ (runs : List SalaryPayroll) (runId : String) (p : SalaryPayroll),
        findPayroll runs runId = some p → p.processed = true →
        (∀ empId, toggleEmployee runs runId empId = runs)
        ∧ toggleAll runs runId = runs
        ∧ (∀ empId v, updateAmount runs runId empId v = runs)) := by
  refine ⟨?_, ?_, ?_, ?_, ?_, ?_⟩
  · intro runs runId k q hq
    simp only [processPayroll, List.get?_map, hq, Option.map_some']
    cases h : q.id == runId
    · exact ⟨q, by simp [h]⟩
    · exact ⟨{ q with processed := true }, by simp [h]⟩
  · intro runs runId
    unfold processPayroll
    rw [List.map_map]
    apply List.map_congr_left
    intro p _
    by_cases h : (p.id == runId) = true
    · simp [Function.comp, h]
    · simp [Function.comp, h]
  · intro runs runId empId k
    unfold toggleEmployee
    by_cases hg : selectedProcessed runs runId = true
    · rw [if_pos hg]
    · rw [if_neg hg, List.get?_map]
      cases hq : runs.get? k
      · rfl
      · simp only [Option.map_some']
        rename_i q
        by_cases h : (q.id == runId) = true <;> simp [h]
  · intro runs runId k
    unfold toggleAll
    by_cases hg : selectedProcessed runs runId = true
    · rw [if_pos hg]
    · rw [if_neg hg, List.get?_map]
      cases hq : runs.get? k
      · rfl
      · simp only [Option.map_some']
        rename_i q
        by_cases h : (q.id == runId) = true <;> simp [h]
  · intro runs runId empId v k
    unfold updateAmount
    by_cases hg : selectedProcessed runs runId = true
    · rw [if_pos hg]
    · rw [if_neg hg, List.get?_map]
      cases hq : runs.get? k
      · rfl
      · simp only [Option.map_some']
        rename_i q
        by_cases h : (q.id == runId) = true <;> simp [h]
  · intro runs runId p hfind hproc
    have hg : selectedProcessed runs runId = true := by
      unfold selectedProcessed
      rw [hfind]
      exact hproc
    exact ⟨fun empId => by unfold toggleEmployee; rw [if_pos hg],
           by unfold toggleAll; rw [if_pos hg],
           fun empId v => by unfold updateAmount; rw [if_pos hg]⟩

/-- Witness for C4: processing a one-run draft store flips its flag to true,
and `setPaid` on a processed run returns the store unchanged. -/
theorem c4_payroll_one_way_witness :
    (∃ q', (processPayroll
        [⟨"payroll-2026-02-20", "2026-02-20", PayrollType.advance, "Февраль 2026",
          [⟨"user-1", "Иванов Иван Иванович", 55000, false⟩], false⟩]
        "payroll-2026-02-20").get? 0 = some q'
      ∧ q'.id = "payroll-2026-02-20" ∧ q'.processed = true)
  ∧ toggleEmployee
      [⟨"payroll-2026-01-20", "2026-01-20", PayrollType.advance, "Январь 2026",
        [⟨"user-1", "Иванов Иван Иванович", 55000, true⟩], true⟩]
      "payroll-2026-01-20" "user-1" =
      [⟨"payroll-2026-01-20", "2026-01-20", PayrollType.advance, "Январь 2026",
        [⟨"user-1", "Иванов Иван Иванович", 55000, true⟩], true⟩] := by
  constructor
  · obtain ⟨q', hq, hid, _, _, _, _, hproc⟩ :=
      c4_payroll_one_way.1
        [⟨"payroll-2026-02-20", "2026-02-20", PayrollType.advance, "Февраль 2026",
          [⟨"user-1", "Иванов Иван Иванович", 55000, false⟩], false⟩]
        "payroll-2026-02-20" 0
        ⟨"payroll-2026-02-20", "2026-02-20", PayrollType.advance, "Февраль 2026",
          [⟨"user-1", "Иванов Иван Иванович", 55000, false⟩], false⟩
        (by rfl)
    exact ⟨q', hq, by rw [hid], by rw [hproc]; rfl⟩
  · exact (c4_payroll_one_way.2.2.2.2.2
      [⟨"payroll-2026-01-20", "2026-01-20", PayrollType.advance, "Январь 2026",
        [⟨"user-1", "Иванов Иван Иванович", 55000, true⟩], true⟩]
      "payroll-2026-01-20"
      ⟨"payroll-2026-01-20", "2026-01-20", PayrollType.advance, "Январь 2026",
        [⟨"user-1", "Иванов Иван Иванович", 55000, true⟩], true⟩
      (by rfl) (by rfl)).1 "user-1"

/-- Half-up rounding overshoots the exact rational by at most 1/2:
`2·D·round(num/D) ≤ 2·num + D`. -/
theorem jsRound_upper (num D : Nat) : jsRound num D * (2 * D) ≤ 2 * num + D := by
  unfold jsRound
  exact Nat.div_mul_le_self _ _

/-- Half-up rounding undershoots the exact rational by less than 1/2:
`2·num + 1 ≤ 2·D·round(num/D) + D` (for `D > 0`). -/
theorem jsRound_lower (num D : Nat) (hD : 0 < D) :
    2 * num + 1 ≤ jsRound num D * (2 * D) + D := by
  have hdm := Nat.div_add_mod (2 * num + D) (2 * D)
  have hmod := Nat.mod_lt (2 * num + D) (show 0 < 2 * D by omega)
  unfold jsRound
  nlinarith [hdm, hmod]

/-- Rounding a whole multiple is exact: `round((A·d)/d) = A`. -/
theorem jsRound_self (A d : Nat) (hd : 0 < d) : jsRound (A * d) d = A := by
  unfold jsRound
  rw [show 2 * (A * d) + d = d * (2 * A + 1) by ring, show 2 * d = d * 2 by ring,
      Nat.mul_div_mul_left _ _ hd]
  omega

theorem shares_sum_upper (A D : Nat) (l : List Nat) :
    ((l.map (fun d => jsRound (A * d) D)).sum) * (2 * D) ≤
      2 * A * l.sum + l.length * D := by
  induction l with
  | nil => simp
  | cons d t ih =>
    simp only [List.map_cons, List.sum_cons, List.length_cons]
    nlinarith [ih, jsRound_upper (A * d) D]

theorem shares_sum_lower (A D : Nat) (hD : 0 < D) (l : List Nat) :
    2 * A * l.sum + l.length ≤
      ((l.map (fun d => jsRound (A * d) D)).sum) * (2 * D) + l.length * D := by
  induction l with
  | nil => simp
  | cons d t ih =>
    simp only [List.map_cons, List.sum_cons, List.length_cons]
    nlinarith [ih, jsRound_lower (A * d) D hD]

/-- Claim C1: the proportional allocator gives each project the share
`round(A · dᵢ / Σd)`, rounded independently, so the shares of one payment
sum to within `n − 1` currency units of `A` (n = number of projects) and are
exact in the exact-division cases; contract staff get proportion 1 on every
listed project; and no normalization forces the shares to sum to `A`
(payment 100 over days 1, 1, 1 yields 33 + 33 + 33 = 99). -/
theorem c1_proportional_allocator :
    (∀ (paymentAmount : Nat) (days : List Nat), days ≠ [] →
        (∀ d ∈ days, 0 < d) →
        paymentAmount ≤
            (projectShares false paymentAmount days).sum + (days.length - 1)
        ∧ (projectShares false paymentAmount days).sum ≤
            paymentAmount + (days.length - 1))
  ∧ (∀ (paymentAmount : Nat) (days : List Nat),
        projectShares true paymentAmount days = days.map (fun _ => paymentAmount))
  ∧ projectShares false 10000 [5, 5] = [5000, 5000]
  ∧ projectShares false 3000 [1, 2] = [1000, 2000]
  ∧ projectShares false 100 [1, 1, 1] = [33, 33, 33]
  ∧ (projectShares false 100 [1, 1, 1]).sum = 99
  ∧ (projectShares false 100 [1, 1, 1]).sum ≠ 100 := by
  refine ⟨?_, ?_, by decide, by decide, by decide, by decide, by decide⟩
  · intro A days hne hpos
    have hD : 0 < days.sum := by
      cases days with
      | nil => exact absurd rfl hne
      | cons d t =>
        have hd := hpos d (List.mem_cons_self d t)
        simp only [List.sum_cons]
        omega
    have hfilter : days.filter (fun d => decide (0 < d)) = days :=
      List.filter_eq_self.mpr (fun a ha => decide_eq_true (hpos a ha))
    have hshape : projectShares false A days =
        days.map (fun d => jsRound (A * d) days.sum) := by
      simp only [projectShares, Bool.or_false, Bool.false_eq_true, if_false,
        if_pos hD, hfilter]
    rw [hshape]
    by_cases h1 : days.length = 1
    · obtain ⟨a, rfl⟩ := List.length_eq_one.mp h1
      have ha : 0 < a := hpos a (List.mem_cons_self a [])
      simp only [List.map_cons, List.map_nil, List.sum_cons, List.sum_nil,
        Nat.add_zero, List.length_cons, List.length_nil]
      rw [jsRound_self A a ha]
      omega
    · have hn2 : 2 ≤ days.length := by
        cases days with
        | nil => exact absurd rfl hne
        | cons d t =>
          cases t with
          | nil => exact absurd rfl h1
          | cons d2 t2 => simp only [List.length_cons]; omega
      have hup := shares_sum_upper A days.sum days
      have hlo := shares_sum_lower A days.sum hD days
      constructor
      · have hmul : (2 * A) * days.sum ≤
            (2 * ((days.map (fun d => jsRound (A * d) days.sum)).sum) +
              days.length) * days.sum := by
          nlinarith [le_trans (Nat.le_add_right (2 * A * days.sum) days.length) hlo]
        have := Nat.le_of_mul_le_mul_right hmul hD
        omega
      · have hmul : (2 * ((days.map (fun d => jsRound (A * d) days.sum)).sum)) *
            days.sum ≤ (2 * A + days.length) * days.sum := by
          nlinarith [hup]
        have := Nat.le_of_mul_le_mul_right hmul hD
        omega
  · intro A days
    simp [projectShares]

/-- Witness for C1: over days 1, 1, 1 a payment of 100 lands within
`n − 1 = 2` units of the sum of its rounded shares. -/
theorem c1_proportional_allocator_witness :
    100 ≤ (projectShares false 100 [1, 1, 1]).sum + ([1, 1, 1].length - 1)
  ∧ (projectShares false 100 [1, 1, 1]).sum ≤ 100 + ([1, 1, 1].length - 1) :=
  c1_proportional_allocator.1 100 [1, 1, 1] (by simp) (by decide)

theorem weekSeqAux_nil_of_gt (f : Nat) (c l : Int) (h : ¬ c ≤ l) :
    weekSeqAux f c l = [] := by
  cases f <;> simp [weekSeqAux, h]

theorem weekSeqAux_head (f : Nat) (c l y : Int)
    (hy : (weekSeqAux f c l).head? = some y) : y = c := by
  cases f with
  | zero => simp [weekSeqAux] at hy
  | succ g =>
    simp only [weekSeqAux] at hy
    split_ifs at hy with h
    · simpa using hy.symm
    · simp at hy

theorem weekSeqAux_chain (f : Nat) (c l : Int) :
    List.Chain' (fun a b => b = a + 7) (weekSeqAux f c l) := by
  induction f generalizing c with
  | zero => simp [weekSeqAux]
  | succ g ih =>
    simp only [weekSeqAux]
    split_ifs with h
    · rw [List.chain'_cons']
      refine ⟨?_, ih (c + 7)⟩
      intro y hy
      exact weekSeqAux_head g (c + 7) l y hy
    · exact List.chain'_nil

theorem weekSeqAux_mem (f : Nat) (c l x : Int) (hx : x ∈ weekSeqAux f c l) :
    ∃ k : Nat, x = c + 7 * k := by
  induction f generalizing c with
  | zero => simp [weekSeqAux] at hx
  | succ g ih =>
    simp only [weekSeqAux] at hx
    split_ifs at hx with h
    · rcases List.mem_cons.mp hx with rfl | hx'
      · exact ⟨0, by simp⟩
      · obtain ⟨k, hk⟩ := ih (c + 7) hx'
        exact ⟨k + 1, by push_cast [hk]; ring⟩
    · simp at hx

theorem weekSeqAux_getLast (f : Nat) (c l : Int) (hcl : c ≤ l)
    (hf : (l + 7 - c).toNat ≤ f) :
    ∃ x, (weekSeqAux f c l).getLast? = some x ∧ x ≤ l ∧ l < x + 7 := by
  induction f generalizing c with
  | zero => omega
  | succ g ih =>
    simp only [weekSeqAux, if_pos hcl]
    by_cases h2 : c + 7 ≤ l
    · obtain ⟨x, hx, hxl, hxu⟩ := ih (c + 7) h2 (by omega)
      refine ⟨x, ?_, hxl, hxu⟩
      have hne : weekSeqAux g (c + 7) l ≠ [] := by
        intro hemp
        rw [hemp] at hx
        simp at hx
      obtain ⟨y, ys, hys⟩ := List.exists_cons_of_ne_nil hne
      rw [hys, List.getLast?_cons_cons]
      rw [hys] at hx
      exact hx
    · rw [weekSeqAux_nil_of_gt g _ _ h2]
      exact ⟨c, by simp, hcl, by omega⟩

theorem weekSeq_head (c l : Int) (h : c ≤ l) : (weekSeq c l).head? = some c := by
  unfold weekSeq
  obtain ⟨g, hg⟩ : ∃ g, (l + 7 - c).toNat = g + 1 := ⟨(l + 6 - c).toNat, by omega⟩
  rw [hg]
  simp [weekSeqAux, h]

theorem startOfWeekMonday_le (d : Int) : startOfWeekMonday d ≤ d := by
  unfold startOfWeekMonday
  omega

/-- Every element produced by the loop from a Monday start is itself a
normalized week start. -/
theorem weekSeq_monday (s l x : Int) (hx : x ∈ weekSeq (startOfWeekMonday s) l) :
    startOfWeekMonday x = x := by
  obtain ⟨k, hk⟩ := weekSeqAux_mem _ _ _ _ hx
  unfold startOfWeekMonday at *
  omega

/-- Claim C7: the range-derived `generateWeeks` of src/pages/Finance.tsx
returns the empty sequence on no projects; otherwise it starts at the Monday
of the week of the earliest start date, steps by exactly 7 days, and its
last element is the last week start not after the latest end date plus the
2-week buffer. -/
theorem c7_generateWeeks_range :
    generateWeeks [] = []
  ∧ (∀ (p : ProjectRange) (ps : List ProjectRange),
      (ps.map (fun q => q.startDate)).foldl min p.startDate ≤
        (ps.map (fun q => q.endDate)).foldl max p.endDate →
      (generateWeeks (p :: ps)).head? =
        some (startOfWeekMonday
          ((ps.map (fun q => q.startDate)).foldl min p.startDate))
      ∧ List.Chain' (fun a b => b = a + 7) (generateWeeks (p :: ps))
      ∧ (∃ L, (generateWeeks (p :: ps)).getLast? = some L
          ∧ L ≤ (ps.map (fun q => q.endDate)).foldl max p.endDate + 14
          ∧ (ps.map (fun q => q.endDate)).foldl max p.endDate + 14 < L + 7)) := by
  refine ⟨rfl, ?_⟩
  intro p ps hle
  have hstart : startOfWeekMonday ((ps.map (fun q => q.startDate)).foldl min p.startDate) ≤
      (ps.map (fun q => q.endDate)).foldl max p.endDate + 14 := by
    have := startOfWeekMonday_le ((ps.map (fun q => q.startDate)).foldl min p.startDate)
    omega
  refine ⟨weekSeq_head _ _ hstart, weekSeqAux_chain _ _ _, ?_⟩
  exact weekSeqAux_getLast _ _ _ hstart (le_refl _)

/-- Claim C8: both period-generation policies produce sequences with
consecutive week starts exactly 7 days apart (hence strictly increasing)
whose every element is normalized to the fixed week-start weekday
(Monday). -/
theorem c8_week_invariants :
    (∀ ps : List ProjectRange,
        List.Chain' (fun a b => b = a + 7) (generateWeeks ps)
      ∧ List.Chain' (fun a b => a < b) (generateWeeks ps)
      ∧ ∀ x ∈ generateWeeks ps, startOfWeekMonday x = x)
  ∧ (∀ halfStart halfEnd : Int,
        List.Chain' (fun a b => b = a + 7) (generateWeeksHalf halfStart halfEnd)
      ∧ List.Chain' (fun a b => a < b) (generateWeeksHalf halfStart halfEnd)
      ∧ ∀ x ∈ generateWeeksHalf halfStart halfEnd, startOfWeekMonday x = x) := by
  constructor
  · intro ps
    cases ps with
    | nil => exact ⟨List.chain'_nil, List.chain'_nil, by simp [generateWeeks]⟩
    | cons p t =>
      refine ⟨weekSeqAux_chain _ _ _, ?_, ?_⟩
      · exact (weekSeqAux_chain _ _ _).imp (fun a b hab => by omega)
      · intro x hx
        exact weekSeq_monday _ _ x hx
  · intro hs he
    refine ⟨weekSeqAux_chain _ _ _, ?_, ?_⟩
    · exact (weekSeqAux_chain _ _ _).imp (fun a b hab => by omega)
    · intro x hx
      exact weekSeq_monday _ _ x hx

/-- Witness for C7: one project running from day 10512 (2014-10-13, a
Monday) to day 10530 generates weeks starting at that Monday. -/
theorem c7_generateWeeks_range_witness :
    (generateWeeks [⟨10512, 10530⟩]).head? = some (startOfWeekMonday 10512)
  ∧ List.Chain' (fun a b => b = a + 7) (generateWeeks [⟨10512, 10530⟩])
  ∧ (∃ L, (generateWeeks [⟨10512, 10530⟩]).getLast? = some L
      ∧ L ≤ 10530 + 14 ∧ 10530 + 14 < L + 7) := by
  have h := c7_generateWeeks_range.2 ⟨10512, 10530⟩ [] (by norm_num)
  exact ⟨h.1, h.2.1, h.2.2⟩

/-- Witness for C8: on a concrete project range and a concrete half-year
both generators satisfy the spacing and normalization invariants. -/
theorem c8_week_invariants_witness :
    List.Chain' (fun a b => b = a + 7) (generateWeeks [⟨10512, 10530⟩])
  ∧ (∀ x ∈ generateWeeksHalf 20454 20633, startOfWeekMonday x = x) :=
  ⟨(c8_week_invariants.1 [⟨10512, 10530⟩]).1,
   (c8_week_invariants.2 20454 20633).2.2⟩
